import Mathlib

/-
Verification of the rot3 GroupOps module
(src/gen/cpp/geo/ops/impl/rot3/group_ops.h).

The header under src declares the four static operations of
`geo::rot3::GroupOps<Scalar>` on the collaborator type `Rot3<Scalar>`
and the two public specializations `geo::GroupOps<Rot3<double>>` and
`geo::GroupOps<Rot3<float>>` (empty structs inheriting from the generic
implementation).  The bodies of the four operations and the `Rot3`
representation itself (geo/rot3.h) are not part of the sources, so they
are modelled from the spec: `Rot3` is the redundant 4-parameter storage
(a quaternion, 4 parameters for 3 degrees of freedom, spec section 3)
whose valid instances are the unit-norm elements, and the operations are
the representation-level identity / inverse (conjugate) / multiply
primitives chained exactly as the spec prescribes.  Scalars are modelled
by exact rational arithmetic, the idealization in which the spec's
"within floating-point tolerance" clauses become exact equalities; the
tolerance-phrased laws are stated with the spec's tolerances and follow
from the exact ones.
-/

namespace SymforceRot3

/-- Modelled from the spec: the external collaborator type `Rot3<Scalar>`
(geo/rot3.h is not among the sources).  Spec section 3: an orientation in
3D stored redundantly as 4 scalar parameters for 3 degrees of freedom,
i.e. a quaternion with components x, y, z and scalar part w. -/
structure Rot3 (K : Type) where
  x : K
  y : K
  z : K
  w : K
deriving DecidableEq, Repr

variable {K : Type} [CommRing K]

/-- Modelled from the spec: the representation-level multiply primitive
supplied by the `Rotation` collaborator (spec section 6), the Hamilton
product on the 4-parameter storage. -/
def qmul (a b : Rot3 K) : Rot3 K :=
  ⟨a.w * b.x + a.x * b.w + a.y * b.z - a.z * b.y,
   a.w * b.y - a.x * b.z + a.y * b.w + a.z * b.x,
   a.w * b.z + a.x * b.y - a.y * b.x + a.z * b.w,
   a.w * b.w - a.x * b.x - a.y * b.y - a.z * b.z⟩

/-- Modelled from the spec: the representation-level inverse primitive
supplied by the `Rotation` collaborator (spec section 6); for unit-norm
storage this is the quaternion conjugate. -/
def qconj (a : Rot3 K) : Rot3 K := ⟨-a.x, -a.y, -a.z, a.w⟩

/-- Modelled from the spec: the collaborator's constructor for the
identity element (spec section 6). -/
def qone : Rot3 K := ⟨0, 0, 0, 1⟩

/-- Squared norm of the 4-parameter storage. -/
def normSq (a : Rot3 K) : K := a.x * a.x + a.y * a.y + a.z * a.z + a.w * a.w

/-- Modelled from the spec: validity of a `Rot3` value (spec section 3) —
the redundant storage denotes a group element exactly when it has unit
norm. -/
def isValid (a : Rot3 K) : Prop := normSq a = 1

namespace GroupOps

/-- Modelled from the spec: body of `rot3::GroupOps<Scalar>::Identity`
(only its declaration, group_ops.h line 18, is among the sources).
Returns the group's identity element. -/
def Identity : Rot3 K := qone

/-- Modelled from the spec: body of `rot3::GroupOps<Scalar>::Inverse`
(only its declaration, group_ops.h line 19, is among the sources).
Returns the group inverse via the representation-level inverse
primitive. -/
def Inverse (a : Rot3 K) : Rot3 K := qconj a

/-- Modelled from the spec: body of `rot3::GroupOps<Scalar>::Compose`
(only its declaration, group_ops.h line 20, is among the sources).
Returns the group product via the representation-level multiply, with
`Compose a b` meaning "apply b then a". -/
def Compose (a b : Rot3 K) : Rot3 K := qmul a b

/-- Modelled from the spec: body of `rot3::GroupOps<Scalar>::Between`
(only its declaration, group_ops.h line 21, is among the sources).
Spec section 4.1 defines it as `r = Compose(Inverse(a), b)`. -/
def Between (a b : Rot3 K) : Rot3 K := Compose (Inverse a) b

end GroupOps

/-- Componentwise closeness of two stored rotations up to a tolerance,
the numerical-equality notion of spec section 8. -/
def withinTol (tol : ℚ) (a b : Rot3 ℚ) : Prop :=
  |a.x - b.x| ≤ tol ∧ |a.y - b.y| ≤ tol ∧ |a.z - b.z| ≤ tol ∧ |a.w - b.w| ≤ tol

/-- The spec's double-precision tolerance, 1e-12. -/
def tolDouble : ℚ := 1 / 10 ^ 12

/-- The spec's single-precision tolerance, 1e-6. -/
def tolFloat : ℚ := 1 / 10 ^ 6

/-- Exact-arithmetic model of the `double` scalar instantiation. -/
abbrev DoubleScalar : Type := ℚ

/-- Exact-arithmetic model of the `float` scalar instantiation. -/
abbrev FloatScalar : Type := ℚ

-- Representation-level algebra, proved once over any commutative ring
-- of scalars.

theorem qmul_assoc (a b c : Rot3 K) : qmul (qmul a b) c = qmul a (qmul b c) := by
  cases a; cases b; cases c
  simp only [qmul, Rot3.mk.injEq]
  refine ⟨by ring, by ring, by ring, by ring⟩

theorem qone_mul (a : Rot3 K) : qmul qone a = a := by
  cases a
  simp only [qmul, qone, Rot3.mk.injEq]
  refine ⟨by ring, by ring, by ring, by ring⟩

theorem mul_qone (a : Rot3 K) : qmul a qone = a := by
  cases a
  simp only [qmul, qone, Rot3.mk.injEq]
  refine ⟨by ring, by ring, by ring, by ring⟩

theorem qmul_qconj_self (a : Rot3 K) : qmul a (qconj a) = ⟨0, 0, 0, normSq a⟩ := by
  cases a
  simp only [qmul, qconj, normSq, Rot3.mk.injEq]
  refine ⟨by ring, by ring, by ring, by ring⟩

theorem qconj_self_qmul (a : Rot3 K) : qmul (qconj a) a = ⟨0, 0, 0, normSq a⟩ := by
  cases a
  simp only [qmul, qconj, normSq, Rot3.mk.injEq]
  refine ⟨by ring, by ring, by ring, by ring⟩

theorem qconj_qconj (a : Rot3 K) : qconj (qconj a) = a := by
  cases a
  simp only [qconj, neg_neg]

theorem normSq_qmul (a b : Rot3 K) : normSq (qmul a b) = normSq a * normSq b := by
  cases a; cases b
  simp only [qmul, normSq]
  ring

theorem normSq_qconj (a : Rot3 K) : normSq (qconj a) = normSq a := by
  cases a
  simp only [qconj, normSq]
  ring

theorem normSq_qone : normSq (qone : Rot3 K) = 1 := by
  simp only [qone, normSq]
  ring

theorem withinTol_of_eq {tol : ℚ} (h : 0 ≤ tol) {a b : Rot3 ℚ} (hab : a = b) :
    withinTol tol a b := by
  subst hab
  simp only [withinTol, sub_self, abs_zero]
  exact ⟨h, h, h, h⟩

theorem tolDouble_nonneg : (0 : ℚ) ≤ tolDouble := by norm_num [tolDouble]

theorem tolFloat_nonneg : (0 : ℚ) ≤ tolFloat := by norm_num [tolFloat]

theorem compose_inv_self (a : Rot3 K) (h : isValid a) :
    qmul a (qconj a) = qone ∧ qmul (qconj a) a = qone := by
  have h1 : normSq a = 1 := h
  rw [qmul_qconj_self, qconj_self_qmul, h1]
  exact ⟨rfl, rfl⟩

/-- C1: for every valid rotation a, Compose(a, Inverse(a)) and
Compose(Inverse(a), a) equal Identity(), within the fixed numerical
tolerance: 1e-12 for the double-precision instantiation and 1e-6 for the
single-precision one.  In the exact-scalar model the equality is exact,
hence within both tolerances. -/
theorem inverse_law (a : Rot3 DoubleScalar) (ha : isValid a) :
    (withinTol tolDouble (GroupOps.Compose a (GroupOps.Inverse a)) GroupOps.Identity ∧
     withinTol tolDouble (GroupOps.Compose (GroupOps.Inverse a) a) GroupOps.Identity) ∧
    (withinTol tolFloat (GroupOps.Compose a (GroupOps.Inverse a)) GroupOps.Identity ∧
     withinTol tolFloat (GroupOps.Compose (GroupOps.Inverse a) a) GroupOps.Identity) := by
  obtain ⟨h1, h2⟩ := compose_inv_self a ha
  exact ⟨⟨withinTol_of_eq tolDouble_nonneg h1, withinTol_of_eq tolDouble_nonneg h2⟩,
         ⟨withinTol_of_eq tolFloat_nonneg h1, withinTol_of_eq tolFloat_nonneg h2⟩⟩

/-- Witness for C1 at the concrete valid rotation (1, 0, 0, 0), a half
turn about the x axis. -/
theorem inverse_law_witness :
    isValid (⟨1, 0, 0, 0⟩ : Rot3 DoubleScalar) ∧
    ((withinTol tolDouble
        (GroupOps.Compose ⟨1, 0, 0, 0⟩ (GroupOps.Inverse ⟨1, 0, 0, 0⟩)) GroupOps.Identity ∧
      withinTol tolDouble
        (GroupOps.Compose (GroupOps.Inverse ⟨1, 0, 0, 0⟩) ⟨1, 0, 0, 0⟩) GroupOps.Identity) ∧
     (withinTol tolFloat
        (GroupOps.Compose ⟨1, 0, 0, 0⟩ (GroupOps.Inverse ⟨1, 0, 0, 0⟩)) GroupOps.Identity ∧
      withinTol tolFloat
        (GroupOps.Compose (GroupOps.Inverse ⟨1, 0, 0, 0⟩) ⟨1, 0, 0, 0⟩) GroupOps.Identity)) :=
  ⟨by simp [isValid, normSq], inverse_law ⟨1, 0, 0, 0⟩ (by simp [isValid, normSq])⟩

/-- C2: for every valid rotation a, Compose(Identity(), a) = a and
Compose(a, Identity()) = a; stated for every scalar instantiation, and
proved exactly. -/
theorem identity_law (a : Rot3 K) (ha : isValid a) :
    GroupOps.Compose GroupOps.Identity a = a ∧
    GroupOps.Compose a GroupOps.Identity = a :=
  ⟨qone_mul a, mul_qone a⟩

/-- Witness for C2 at the concrete valid rotation (0, 1, 0, 0). -/
theorem identity_law_witness :
    isValid (⟨0, 1, 0, 0⟩ : Rot3 DoubleScalar) ∧
    (GroupOps.Compose GroupOps.Identity ⟨0, 1, 0, 0⟩ = (⟨0, 1, 0, 0⟩ : Rot3 DoubleScalar) ∧
     GroupOps.Compose ⟨0, 1, 0, 0⟩ GroupOps.Identity = (⟨0, 1, 0, 0⟩ : Rot3 DoubleScalar)) :=
  ⟨by simp [isValid, normSq], identity_law ⟨0, 1, 0, 0⟩ (by simp [isValid, normSq])⟩

/-- C3: for all valid rotations a, b, c, composition is associative
within the fixed tolerance (1e-12 double, 1e-6 single); exact in the
exact-scalar model, hence within both tolerances. -/
theorem compose_assoc_law (a b c : Rot3 DoubleScalar)
    (ha : isValid a) (hb : isValid b) (hc : isValid c) :
    withinTol tolDouble (GroupOps.Compose (GroupOps.Compose a b) c)
      (GroupOps.Compose a (GroupOps.Compose b c)) ∧
    withinTol tolFloat (GroupOps.Compose (GroupOps.Compose a b) c)
      (GroupOps.Compose a (GroupOps.Compose b c)) :=
  ⟨withinTol_of_eq tolDouble_nonneg (qmul_assoc a b c),
   withinTol_of_eq tolFloat_nonneg (qmul_assoc a b c)⟩

/-- Witness for C3 at the concrete valid rotations (1,0,0,0), (0,1,0,0)
and (0,0,1,0). -/
theorem compose_assoc_law_witness :
    isValid (⟨1, 0, 0, 0⟩ : Rot3 DoubleScalar) ∧
    isValid (⟨0, 1, 0, 0⟩ : Rot3 DoubleScalar) ∧
    isValid (⟨0, 0, 1, 0⟩ : Rot3 DoubleScalar) ∧
    (withinTol tolDouble (GroupOps.Compose (GroupOps.Compose ⟨1, 0, 0, 0⟩ ⟨0, 1, 0, 0⟩) ⟨0, 0, 1, 0⟩)
       (GroupOps.Compose ⟨1, 0, 0, 0⟩ (GroupOps.Compose ⟨0, 1, 0, 0⟩ ⟨0, 0, 1, 0⟩)) ∧
     withinTol tolFloat (GroupOps.Compose (GroupOps.Compose ⟨1, 0, 0, 0⟩ ⟨0, 1, 0, 0⟩) ⟨0, 0, 1, 0⟩)
       (GroupOps.Compose ⟨1, 0, 0, 0⟩ (GroupOps.Compose ⟨0, 1, 0, 0⟩ ⟨0, 0, 1, 0⟩))) :=
  ⟨by simp [isValid, normSq], by simp [isValid, normSq], by simp [isValid, normSq],
   compose_assoc_law ⟨1, 0, 0, 0⟩ ⟨0, 1, 0, 0⟩ ⟨0, 0, 1, 0⟩
     (by simp [isValid, normSq]) (by simp [isValid, normSq]) (by simp [isValid, normSq])⟩

/-- C4: Between(a, b) = Compose(Inverse(a), b); consequently
Between(a, a) = Identity() and Compose(a, Between(a, b)) = b, for all
valid a, b, in every scalar instantiation. -/
theorem between_law (a b : Rot3 K) (ha : isValid a) (hb : isValid b) :
    GroupOps.Between a b = GroupOps.Compose (GroupOps.Inverse a) b ∧
    GroupOps.Between a a = GroupOps.Identity ∧
    GroupOps.Compose a (GroupOps.Between a b) = b := by
  refine ⟨rfl, (compose_inv_self a ha).2, ?_⟩
  show qmul a (qmul (qconj a) b) = b
  rw [← qmul_assoc, (compose_inv_self a ha).1, qone_mul]

/-- Witness for C4 at the concrete valid rotations (1, 0, 0, 0) and
(0, 0, 1, 0). -/
theorem between_law_witness :
    isValid (⟨1, 0, 0, 0⟩ : Rot3 DoubleScalar) ∧
    isValid (⟨0, 0, 1, 0⟩ : Rot3 DoubleScalar) ∧
    (GroupOps.Between ⟨1, 0, 0, 0⟩ ⟨0, 0, 1, 0⟩ =
       GroupOps.Compose (GroupOps.Inverse ⟨1, 0, 0, 0⟩) (⟨0, 0, 1, 0⟩ : Rot3 DoubleScalar) ∧
     GroupOps.Between ⟨1, 0, 0, 0⟩ (⟨1, 0, 0, 0⟩ : Rot3 DoubleScalar) = GroupOps.Identity ∧
     GroupOps.Compose ⟨1, 0, 0, 0⟩ (GroupOps.Between ⟨1, 0, 0, 0⟩ ⟨0, 0, 1, 0⟩) =
       (⟨0, 0, 1, 0⟩ : Rot3 DoubleScalar)) :=
  ⟨by simp [isValid, normSq], by simp [isValid, normSq],
   between_law ⟨1, 0, 0, 0⟩ ⟨0, 0, 1, 0⟩ (by simp [isValid, normSq]) (by simp [isValid, normSq])⟩

/-- C5: inversion is an involution, Inverse(Inverse(a)) = a for every
valid rotation a, in every scalar instantiation; exact equality. -/
theorem double_inverse_law (a : Rot3 K) (ha : isValid a) :
    GroupOps.Inverse (GroupOps.Inverse a) = a :=
  qconj_qconj a

/-- Witness for C5 at the concrete valid rotation (0, 1, 0, 0). -/
theorem double_inverse_law_witness :
    isValid (⟨0, 1, 0, 0⟩ : Rot3 DoubleScalar) ∧
    GroupOps.Inverse (GroupOps.Inverse ⟨0, 1, 0, 0⟩) = (⟨0, 1, 0, 0⟩ : Rot3 DoubleScalar) :=
  ⟨by simp [isValid, normSq], double_inverse_law ⟨0, 1, 0, 0⟩ (by simp [isValid, normSq])⟩

/-- A 3D vector over the scalar type, the domain on which rotations act
(spec section 3: a rotation is a norm-preserving linear map on 3D
vectors). -/
structure Vec3 (K : Type) where
  x : K
  y : K
  z : K
deriving DecidableEq, Repr

/-- Modelled from the spec: the action of a stored rotation on a 3D
vector (the `Rot3` member applying the rotation is not among the
sources); for quaternion storage q the image of v is the vector part of
the product q * (0, v) * q⁻¹. -/
def applyRot (q : Rot3 K) (v : Vec3 K) : Vec3 K :=
  ⟨(qmul (qmul q ⟨v.x, v.y, v.z, 0⟩) (qconj q)).x,
   (qmul (qmul q ⟨v.x, v.y, v.z, 0⟩) (qconj q)).y,
   (qmul (qmul q ⟨v.x, v.y, v.z, 0⟩) (qconj q)).z⟩

/-- C6: for all valid rotations a, b and every vector v, Compose(a, b)
applied to v equals a applied to (b applied to v): composition means
"apply b then a". -/
theorem compose_convention_law (a b : Rot3 K) (v : Vec3 K)
    (ha : isValid a) (hb : isValid b) :
    applyRot (GroupOps.Compose a b) v = applyRot a (applyRot b v) := by
  cases a; cases b; cases v
  simp only [applyRot, GroupOps.Compose, qmul, qconj, Vec3.mk.injEq]
  refine ⟨by ring, by ring, by ring⟩

/-- Witness for C6 at the rotations (1, 0, 0, 0) and (0, 1, 0, 0) and
the vector (1, 2, 3). -/
theorem compose_convention_law_witness :
    isValid (⟨1, 0, 0, 0⟩ : Rot3 DoubleScalar) ∧
    isValid (⟨0, 1, 0, 0⟩ : Rot3 DoubleScalar) ∧
    applyRot (GroupOps.Compose ⟨1, 0, 0, 0⟩ ⟨0, 1, 0, 0⟩) (⟨1, 2, 3⟩ : Vec3 DoubleScalar) =
      applyRot ⟨1, 0, 0, 0⟩ (applyRot ⟨0, 1, 0, 0⟩ ⟨1, 2, 3⟩) :=
  ⟨by simp [isValid, normSq], by simp [isValid, normSq],
   compose_convention_law ⟨1, 0, 0, 0⟩ ⟨0, 1, 0, 0⟩ ⟨1, 2, 3⟩
     (by simp [isValid, normSq]) (by simp [isValid, normSq])⟩

/-- C7: the four operations are total over valid rotations.  In the
model each operation is a total function into `Rot3` — there is no
Option, error return or exception path in any of the definitions — and
this theorem states the substantive part: on valid inputs every
operation returns a valid rotation, and in particular Inverse succeeds
on every valid rotation. -/
theorem totality_law (a b : Rot3 K) (ha : isValid a) (hb : isValid b) :
    isValid (GroupOps.Identity : Rot3 K) ∧ isValid (GroupOps.Inverse a) ∧
    isValid (GroupOps.Compose a b) ∧ isValid (GroupOps.Between a b) := by
  have h1 : normSq a = 1 := ha
  have h2 : normSq b = 1 := hb
  refine ⟨normSq_qone, ?_, ?_, ?_⟩
  · show normSq (qconj a) = 1
    rw [normSq_qconj, h1]
  · show normSq (qmul a b) = 1
    rw [normSq_qmul, h1, h2, one_mul]
  · show normSq (qmul (qconj a) b) = 1
    rw [normSq_qmul, normSq_qconj, h1, h2, one_mul]

/-- Witness for C7 at the rotations (0, 0, 1, 0) and (1, 0, 0, 0). -/
theorem totality_law_witness :
    isValid (⟨0, 0, 1, 0⟩ : Rot3 DoubleScalar) ∧
    isValid (⟨1, 0, 0, 0⟩ : Rot3 DoubleScalar) ∧
    (isValid (GroupOps.Identity : Rot3 DoubleScalar) ∧
     isValid (GroupOps.Inverse (⟨0, 0, 1, 0⟩ : Rot3 DoubleScalar)) ∧
     isValid (GroupOps.Compose (⟨0, 0, 1, 0⟩ : Rot3 DoubleScalar) ⟨1, 0, 0, 0⟩) ∧
     isValid (GroupOps.Between (⟨0, 0, 1, 0⟩ : Rot3 DoubleScalar) ⟨1, 0, 0, 0⟩)) :=
  ⟨by simp [isValid, normSq], by simp [isValid, normSq],
   totality_law ⟨0, 0, 1, 0⟩ ⟨1, 0, 0, 0⟩ (by simp [isValid, normSq]) (by simp [isValid, normSq])⟩

/-- C8: Identity() is the fixed value (0, 0, 0, 1) — a constant of the
model, hence deterministic and independent of evaluation order — and
with I = Identity(): Inverse(I) = I, Compose(I, I) = I and
Between(I, I) = I.  Closed statement, proved exactly. -/
theorem identity_concrete_law :
    (GroupOps.Identity : Rot3 DoubleScalar) = ⟨0, 0, 0, 1⟩ ∧
    GroupOps.Inverse (GroupOps.Identity : Rot3 DoubleScalar) = GroupOps.Identity ∧
    GroupOps.Compose GroupOps.Identity (GroupOps.Identity : Rot3 DoubleScalar) =
      GroupOps.Identity ∧
    GroupOps.Between GroupOps.Identity (GroupOps.Identity : Rot3 DoubleScalar) =
      GroupOps.Identity := by
  refine ⟨rfl, ?_, ?_, ?_⟩
  · simp [GroupOps.Inverse, GroupOps.Identity, qconj, qone]
  · exact qone_mul qone
  · show qmul (qconj qone) qone = qone
    simp [qconj, qone, qmul]

/-- The interface shape of a GroupOps implementation on a rotation
type R: the four operations of group_ops.h lines 18–21. -/
structure GroupOpsRecord (R : Type) where
  identity : R
  inverse : R → R
  compose : R → R → R
  between : R → R → R

/-- The generic implementation `rot3::GroupOps<Scalar>` (group_ops.h
lines 16–23) packaged as a record of its four operations. -/
def rot3GroupOpsRecord (K : Type) [CommRing K] : GroupOpsRecord (Rot3 K) :=
  ⟨GroupOps.Identity, GroupOps.Inverse, GroupOps.Compose, GroupOps.Between⟩

/-- The rotation types for which group_ops.h specializes the public
`geo::GroupOps` concept: exactly `Rot3<double>` and `Rot3<float>`
(lines 29–32); the inductive has exactly these two constructors. -/
inductive SpecializedType where
  | rot3Double
  | rot3Float
deriving DecidableEq, Repr

/-- The scalar type of each public specialization. -/
def scalarOf : SpecializedType → Type
  | SpecializedType.rot3Double => DoubleScalar
  | SpecializedType.rot3Float => FloatScalar

/-- The public `geo::GroupOps<Rot3<Scalar>>` specializations, modelled
from group_ops.h lines 29–32: each is an empty struct inheriting from
`rot3::GroupOps<Scalar>`, so it exposes exactly the base
implementation's four static operations, unchanged. -/
def publicGroupOps : (t : SpecializedType) → GroupOpsRecord (Rot3 (scalarOf t))
  | SpecializedType.rot3Double => rot3GroupOpsRecord DoubleScalar
  | SpecializedType.rot3Float => rot3GroupOpsRecord FloatScalar

/-- C10: the public GroupOps concept is specialized for exactly the two
instantiations Rot3 of double and Rot3 of float, and on every input each
public specialization returns the same result as the generic
`rot3::GroupOps` implementation at the corresponding scalar type. -/
theorem public_specialization_law :
    (∀ t : SpecializedType,
       t = SpecializedType.rot3Double ∨ t = SpecializedType.rot3Float) ∧
    (∀ a b : Rot3 DoubleScalar,
       (publicGroupOps SpecializedType.rot3Double).identity =
         (rot3GroupOpsRecord DoubleScalar).identity ∧
       (publicGroupOps SpecializedType.rot3Double).inverse a =
         (rot3GroupOpsRecord DoubleScalar).inverse a ∧
       (publicGroupOps SpecializedType.rot3Double).compose a b =
         (rot3GroupOpsRecord DoubleScalar).compose a b ∧
       (publicGroupOps SpecializedType.rot3Double).between a b =
         (rot3GroupOpsRecord DoubleScalar).between a b) ∧
    (∀ a b : Rot3 FloatScalar,
       (publicGroupOps SpecializedType.rot3Float).identity =
         (rot3GroupOpsRecord FloatScalar).identity ∧
       (publicGroupOps SpecializedType.rot3Float).inverse a =
         (rot3GroupOpsRecord FloatScalar).inverse a ∧
       (publicGroupOps SpecializedType.rot3Float).compose a b =
         (rot3GroupOpsRecord FloatScalar).compose a b ∧
       (publicGroupOps SpecializedType.rot3Float).between a b =
         (rot3GroupOpsRecord FloatScalar).between a b) := by
  refine ⟨fun t => ?_, fun a b => ⟨rfl, rfl, rfl, rfl⟩, fun a b => ⟨rfl, rfl, rfl, rfl⟩⟩
  cases t
  · exact Or.inl rfl
  · exact Or.inr rfl

end SymforceRot3
